import Mathlib

/-!
Verification of the Venue Resolution & Matching Engine of the
Birthday_Planner repository (src/agents/venue_agent.py), embedded shallowly:
Python strings become Lean `String`, dictionaries become structures with
`Option` fields (a missing key is `none`), external collaborators (geocoder,
place text search, place details) become an explicit environment of functions,
and every exception-swallowing call site becomes an `Option`-valued call.

Python's Unicode case folding is modelled on the character repertoire the
program actually manipulates: ASCII letters plus the Turkish letters handled
by `_normalize_tr`'s substitution table (which the code applies before case
folding, so the multi-character foldings of Python never arise).
-/

namespace VenueAgent

/-- First-match lookup in a character substitution table. -/
def tableLookup (ps : List (Char × Char)) (c : Char) : Option Char :=
  match ps with
  | [] => none
  | p :: rest => if p.1 = c then some p.2 else tableLookup rest c

/-- Substitution pairs from `_normalize_tr` (`str.maketrans`): Turkish
dotless/dotted i, ş, ğ, ü, ö, ç in both cases map to ASCII. -/
def trPairs : List (Char × Char) :=
  [('ı', 'i'), ('İ', 'i'), ('ş', 's'), ('Ş', 's'), ('ğ', 'g'), ('Ğ', 'g'),
   ('ü', 'u'), ('Ü', 'u'), ('ö', 'o'), ('Ö', 'o'), ('ç', 'c'), ('Ç', 'c')]

/-- Python `str.translate` applied to one character. -/
def trTable (c : Char) : Char := (tableLookup trPairs c).getD c

/-- Lowercasing pairs: ASCII `A`–`Z` plus the Turkish uppercase letters. -/
def lowerPairs : List (Char × Char) :=
  [('A', 'a'), ('B', 'b'), ('C', 'c'), ('D', 'd'), ('E', 'e'), ('F', 'f'),
   ('G', 'g'), ('H', 'h'), ('I', 'i'), ('J', 'j'), ('K', 'k'), ('L', 'l'),
   ('M', 'm'), ('N', 'n'), ('O', 'o'), ('P', 'p'), ('Q', 'q'), ('R', 'r'),
   ('S', 's'), ('T', 't'), ('U', 'u'), ('V', 'v'), ('W', 'w'), ('X', 'x'),
   ('Y', 'y'), ('Z', 'z'),
   ('Ç', 'ç'), ('Ö', 'ö'), ('Ü', 'ü'), ('Ğ', 'ğ'), ('Ş', 'ş'), ('İ', 'i')]

/-- Character-level model of Python `str.lower`/`str.casefold`, restricted to
the repertoire the program uses (any character outside the table is left
unchanged, as Python does for characters with no case mapping). -/
def charLower (c : Char) : Char := (tableLookup lowerPairs c).getD c

/-- Python `s.lower()` modelled character-wise. -/
def pyLower (s : String) : String := String.mk (s.toList.map charLower)

/-- Source `_normalize_tr`: `s.translate(table).casefold()`; both stages are
character-wise, so their composition is a character-wise map. The
`isinstance(s, str)` guard is dropped (inputs are strings by typing). -/
def normalize_tr (s : String) : String :=
  String.mk (s.toList.map fun c => charLower (trTable c))

/-- Python whitespace test used for `\s`, `.strip()` and `.split()`. -/
def pyWS (c : Char) : Bool := c.isWhitespace

/-- Python `s.strip()` on the character list. -/
def stripList (l : List Char) : List Char :=
  ((l.dropWhile pyWS).reverse.dropWhile pyWS).reverse

/-- Python `s.strip()`. -/
def pyStrip (s : String) : String := String.mk (stripList s.toList)

/-- Python `s.split()` (split on whitespace runs, no empty pieces), as a
fuelled scanner over the character list (fuel = list length; each step
strictly shortens the list). -/
def pyWordsFuel : Nat → List Char → List String
  | 0, _ => []
  | _ + 1, [] => []
  | fuel + 1, c :: rest =>
    if pyWS c then pyWordsFuel fuel rest
    else String.mk (c :: rest.takeWhile (fun d => !pyWS d))
      :: pyWordsFuel fuel (rest.dropWhile (fun d => !pyWS d))

/-- Python `s.split()`. -/
def pyWords (s : String) : List String := pyWordsFuel s.toList.length s.toList

/-- Is `pat` a prefix of `l`? (Building block for Python's `in`.) -/
def hasPre (pat : List Char) : List Char → Bool
  | [] => pat.isEmpty
  | b :: bs =>
    match pat with
    | [] => true
    | a :: as => a = b && hasPre as bs

/-- Does `pat` occur contiguously inside `hay`? -/
def hasSub (pat : List Char) : List Char → Bool
  | [] => pat.isEmpty
  | b :: bs => hasPre pat (b :: bs) || hasSub pat bs

/-- Python `needle in hay` on strings. -/
def pyIn (needle hay : String) : Bool := hasSub needle.toList hay.toList

/-- Source `_in_city`: `False` on a falsy (empty) address or city, else a
one-directional substring test of the normalized city inside the
normalized address. -/
def in_city (addr city : String) : Bool :=
  if addr = "" ∨ city = "" then false
  else pyIn (normalize_tr city) (normalize_tr addr)

/-- Source `_is_outdoor_type`: `(venue_type or "").strip().lower() == "outdoor"`. -/
def is_outdoor_type (venue_type : String) : Bool :=
  pyLower (pyStrip venue_type) = "outdoor"

/-- The input characters of `trTable` (the `maketrans` keys). -/
def trKeys : List Char := ['ı', 'İ', 'ş', 'Ş', 'ğ', 'Ğ', 'ü', 'Ü', 'ö', 'Ö', 'ç', 'Ç']

/-- The output characters of `trTable`. -/
def trOuts : List Char := ['i', 's', 'g', 'u', 'o', 'c']

/-- The ASCII lowercase letters. -/
def asciiLowers : List Char :=
  ['a', 'b', 'c', 'd', 'e', 'f', 'g', 'h', 'i', 'j', 'k', 'l', 'm',
   'n', 'o', 'p', 'q', 'r', 's', 't', 'u', 'v', 'w', 'x', 'y', 'z']

/-- The Place Details dictionary as the venue agent reads it: each dict key
becomes an `Option` field (`none` models a missing key / `None` value).
`rating` is a provider float used only for display, modelled by its rendered
string; `user_ratings_total` is an integer. `serves_cuisine`,
`editorial_overview` (= `editorial_summary["overview"]`) and `types` are read
only by the cuisine matcher. -/
structure PlaceDetails where
  place_id : Option String
  name : Option String
  formatted_address : Option String
  rating : Option String
  user_ratings_total : Option Nat
  price_text : Option String
  website : Option String
  maps_url : Option String
  weekday_text : List String
  open_now : Option Bool
  serves_cuisine : Option (List String)
  editorial_overview : Option String
  types : Option (List String)
deriving DecidableEq

/-- A text-search seed: the venue agent reads only `place_id` (and the
adapter also returns `name`). -/
structure Seed where
  place_id : Option String
  name : Option String
deriving DecidableEq

/-- The external collaborators (geocoder, Places text search, Places details)
as an environment of deterministic functions. `γ` is the opaque coordinate
type of the geocoder (the core only passes it along as a search bias).
`textSearch q bias radius maxResults = none` models a raised exception at the
call site (the venue agent wraps those calls in `try`/`except ... continue`);
`details pid = none` models both a failed lookup and a raised exception. -/
structure Env (γ : Type) where
  geocode : String → Option γ
  textSearch : String → Option γ → Nat → Nat → Option (List Seed)
  details : String → Option PlaceDetails

/-- Python truthiness for an optional string: `None` and `""` are falsy. -/
def truthyStr : Option String → Option String
  | some s => if s = "" then none else some s
  | none => none

/-- Python `a or b` for strings. -/
def pyOr (a b : String) : String := if a = "" then b else a

/-- Python `sep.join(parts)`. -/
def joinParts (sep : String) : List String → String
  | [] => ""
  | [p] => p
  | p :: q :: rest => p ++ sep ++ joinParts sep (q :: rest)

/-- Table `CUISINE_KEYS.get(ckey, [ckey])` from `_matches_cuisine`. -/
def cuisineKeys (ckey : String) : List String :=
  if ckey = "italian" then
    ["italian", "italiano", "italyan", "ristorante", "trattoria", "pizzeria",
     "pizza", "pasta"]
  else if ckey = "turkish" then
    ["turkish", "türk", "lokanta", "kebap", "ocakbaşı", "meze"]
  else if ckey = "mediterranean" then ["mediterranean", "akdeniz"]
  else if ckey = "asian" then
    ["asian", "asya", "sushi", "ramen", "thai", "korean", "kore", "japanese",
     "japon"]
  else if ckey = "mixed" then ["mixed", "international", "uluslararasi"]
  else [ckey]

/-- Source `_matches_cuisine`: empty cuisine always matches; otherwise first check
the structured `serves_cuisine` field (exact membership of the lowercased
entry in the synonym list), then a substring scan of the synonyms over the
concatenated name/address/overview/types/website haystack. -/
def matches_cuisine (det : PlaceDetails) (cuisine : String) : Bool :=
  if cuisine = "" then true
  else
    let ckey := pyLower (pyStrip cuisine)
    let keys := cuisineKeys ckey
    let servesHit :=
      match det.serves_cuisine with
      | some l => l.any fun s => keys.contains (pyLower s)
      | none => false
    if servesHit then true
    else
      let overview := det.editorial_overview.getD ""
      let typesStr := joinParts " " (det.types.getD [])
      let hay := pyLower (joinParts " "
        [det.name.getD "", det.formatted_address.getD "", overview, typesStr,
         det.website.getD ""])
      keys.any fun k => pyIn k hay

/-- One attempt to close an emphasis span: take the non-`*` run after the
opening `**` (the regex class `[^*]+` — at least one character), then require
a closing `**`. Returns the capture and the remainder after the closing
markers. -/
def grabCapture (rest : List Char) : Option (List Char × List Char) :=
  let cap := rest.takeWhile (· ≠ '*')
  let r := rest.dropWhile (· ≠ '*')
  if cap.isEmpty then none
  else
    match r with
    | '*' :: '*' :: r2 => some (cap, r2)
    | _ => none

/-- Pattern scan `re.findall(r"\*\*([^*]+?)\*\*\s*[:\-]?", text)` as a fuelled scanner
(fuel = list length; each step strictly shortens the text). On a failed
close the regex engine restarts one character after the failed start, i.e.
at the second `*` of the opener. The trailing `\s*[:\-]?` of the pattern
consumes only whitespace / one `:` or `-`, none of which can begin a `**`
opener, so it does not change the capture list and is omitted. -/
def findBoldFuel : Nat → List Char → List String
  | 0, _ => []
  | _ + 1, [] => []
  | fuel + 1, c :: rest =>
    if c = '*' then
      match rest with
      | c2 :: rest2 =>
        if c2 = '*' then
          match grabCapture rest2 with
          | some (cap, rest3) => String.mk cap :: findBoldFuel fuel rest3
          | none => findBoldFuel fuel ('*' :: rest2)
        else findBoldFuel fuel rest
      | [] => []
    else findBoldFuel fuel rest

/-- All captures of the emphasis pattern over a string, in scan order. -/
def findBold (s : String) : List String := findBoldFuel s.toList.length s.toList

/-- One attempt to match `\s*\([^)]*\)\s*` at the current position: greedy
leading whitespace, `(`, a non-`)` run, `)`, greedy trailing whitespace.
Returns the remainder on success. -/
def tryParen (l : List Char) : Option (List Char) :=
  match l.dropWhile pyWS with
  | '(' :: l2 =>
    (match l2.dropWhile (· ≠ ')') with
     | ')' :: l3 => some (l3.dropWhile pyWS)
     | _ => none)
  | _ => none

/-- Substitution `re.sub(r"\s*\([^)]*\)\s*", "", s)` as a fuelled scanner: at each
position try the parenthetical pattern; on success drop it and continue
after it, otherwise emit the character. -/
def subParenFuel : Nat → List Char → List Char
  | 0, cs => cs
  | _ + 1, [] => []
  | fuel + 1, c :: cs =>
    (match tryParen (c :: cs) with
     | some rest => subParenFuel fuel rest
     | none => c :: subParenFuel fuel cs)

/-- Remove every parenthetical group (with adjacent whitespace). -/
def subParen (s : String) : String := String.mk (subParenFuel s.toList.length s.toList)

/-- The `re.sub(...)` call followed by `.strip()`, applied to each raw capture. -/
def processedName (raw : String) : String := pyStrip (subParen raw)

/-- Python `str.splitlines` restricted to `\n`, `\r`, `\r\n` terminators
(the only line breaks the program's inputs contain). -/
def splitLinesFuel : Nat → List Char → List Char → List String
  | 0, _, cur => if cur.isEmpty then [] else [String.mk cur.reverse]
  | _ + 1, [], cur => if cur.isEmpty then [] else [String.mk cur.reverse]
  | fuel + 1, c :: rest, cur =>
    if c = '\r' then
      match rest with
      | c2 :: rest2 =>
        if c2 = '\n' then String.mk cur.reverse :: splitLinesFuel fuel rest2 []
        else String.mk cur.reverse :: splitLinesFuel fuel rest []
      | [] => [String.mk cur.reverse]
    else if c = '\n' then String.mk cur.reverse :: splitLinesFuel fuel rest []
    else splitLinesFuel fuel rest (c :: cur)

def pySplitLines (s : String) : List String :=
  splitLinesFuel s.toList.length s.toList []

/-- Python `s.startswith(("*", "-"))` for the single-character markers. -/
def startsBullet (s : String) : Bool :=
  match s.toList with
  | c :: _ => c = '*' || c = '-'
  | [] => false

/-- The two extraction passes of `_extract_venue_names_from_text`, before
de-duplication: all whole-text captures, then the first capture of each
stripped bullet line; each capture has its parentheticals removed, is
trimmed, and is kept only if longer than 2 characters. -/
def candidateNames (text : String) : List String :=
  ((findBold text).filterMap fun m =>
    let n := processedName m
    if 2 < n.length then some n else none)
  ++ ((pySplitLines text).filterMap fun line =>
    let s := pyStrip line
    if startsBullet s then
      match (findBold s).head? with
      | some m =>
        let n := processedName m
        if 2 < n.length then some n else none
      | none => none
    else none)

/-- Order-preserving case-insensitive de-duplication (`seen` holds the
lowercased keys already emitted). -/
def dedupCIAux : List String → List String → List String
  | [], _ => []
  | n :: ns, seen =>
    if seen.contains (pyLower n) then dedupCIAux ns seen
    else n :: dedupCIAux ns (pyLower n :: seen)

/-- Source `_extract_venue_names_from_text` (the `if not text` guard, both passes,
de-duplication, and the `[:3]` cap). -/
def extract_venue_names_from_text (text : String) : List String :=
  if text = "" then [] else (dedupCIAux (candidateNames text) []).take 3

/-- The four query variants of `_search_venue_in_places`. -/
def resolverQueries (venue_name city : String) : List String :=
  [venue_name ++ " " ++ city, venue_name,
   venue_name ++ " venue " ++ city, venue_name ++ " restaurant " ++ city]

/-- The per-record score of `_search_venue_in_places`: case-insensitive word
overlap between the candidate name and the record name, +2 on a city match,
and (when a cuisine was requested) +3 / −2 on a cuisine match / mismatch. -/
def scoreRecord (venue_name city ckey : String) (det : PlaceDetails) : Int :=
  let name := pyLower (det.name.getD "")
  let name_words := (pyWords (pyLower venue_name)).dedup
  let overlap := (name_words.filter fun w => (pyWords name).contains w).length
  let addr := det.formatted_address.getD ""
  (overlap : Int) + (if in_city addr city then 2 else 0)
    + (if ckey ≠ "" then (if matches_cuisine det ckey then 3 else (-2)) else 0)

/-- Resolving one seed: skip a falsy `place_id`, then fetch details (`none`
models both a details failure and a raised exception, both skipped). -/
def resolveSeed {γ : Type} (env : Env γ) (s : Seed) : Option PlaceDetails :=
  match truthyStr s.place_id with
  | none => none
  | some pid => env.details pid

/-- The inner seed loop of `_search_venue_in_places`: greedy strict-best
update of the running `(score, details)` pair. -/
def searchFold {γ : Type} (env : Env γ) (vn city ckey : String)
    (best : Int × Option PlaceDetails) (seeds : List Seed) :
    Int × Option PlaceDetails :=
  seeds.foldl (fun b s =>
    match resolveSeed env s with
    | none => b
    | some det =>
      if scoreRecord vn city ckey det > b.1 then (scoreRecord vn city ckey det, some det)
      else b) best

/-- Source `_search_venue_in_places`: absent without credentials, else the greedy
global best across the four query variants, starting from the sentinel
`(-1, None)`. A `textSearch` exception (`none`) skips that query. -/
def search_venue_in_places {γ : Type} (env : Env γ) (hasKey : Bool)
    (venue_name city cuisine : String) : Option PlaceDetails :=
  if !hasKey then none
  else
    let center := if city ≠ "" then env.geocode city else none
    let ckey := pyLower (pyStrip cuisine)
    ((resolverQueries venue_name city).foldl (fun b q =>
      match env.textSearch q center 20000 8 with
      | none => b
      | some seeds => searchFold env venue_name city ckey b seeds)
      ((-1 : Int), none)).2

/-- Table `base_terms.get(venue_type.lower(), ["venue", "restaurant"])`. -/
def baseTerms (vt : String) : List String :=
  if vt = "indoor" then ["restaurant", "cafe", "party hall", "event venue"]
  else if vt = "outdoor" then ["park", "garden", "beach club", "terrace"]
  else if vt = "hybrid" then ["restaurant with terrace", "event space", "venue"]
  else ["venue", "restaurant"]

/-- The fixed outdoor term list (English terms plus Turkish variants). -/
def outdoorTerms : List String :=
  ["park", "garden", "botanical garden", "zoo", "beach", "beach club",
   "outdoor event space", "promenade", "terrace", "viewing terrace",
   "piknik alanı", "mesire alanı", "çocuk parkı", "seyir terası",
   "koru", "kent ormanı", "tabiat parkı"]

/-- Table `CUISINE_TERMS.get(ckey, [ckey] if ckey else [])`. -/
def cuisineTerms (ckey : String) : List String :=
  if ckey = "italian" then
    ["italian restaurant", "italyan restoran", "pizzeria", "trattoria"]
  else if ckey = "turkish" then
    ["turkish restaurant", "türk restoran", "lokanta"]
  else if ckey = "mediterranean" then
    ["mediterranean restaurant", "akdeniz restoran"]
  else if ckey = "asian" then
    ["asian restaurant", "asya restoran", "sushi", "ramen"]
  else if ckey = "mixed" then ["international restaurant", "mixed cuisine"]
  else if ckey = "" then []
  else [ckey]

/-- Query construction of `_get_fallback_venues`: outdoor terms only when
outdoor; otherwise cuisine-first queries, then the venue-type terms each
optionally prefixed by the cuisine key. -/
def fallbackQueries (city venue_type cuisine : String) (is_outdoor : Bool) :
    List String :=
  if is_outdoor then outdoorTerms.map (fun t => t ++ " " ++ city)
  else
    let ckey := pyLower (pyStrip cuisine)
    (cuisineTerms ckey).map (fun t => t ++ " " ++ city)
      ++ (baseTerms (pyLower venue_type)).flatMap (fun t =>
        (if ckey ≠ "" then [ckey ++ " " ++ t ++ " " ++ city] else [])
          ++ [t ++ " " ++ city])

/-- The seed-collection loop: stop once 12 seeds are on hand (checked before
each query; one query may push past 12), a raised search exception (`none`)
leaves the accumulator unchanged. -/
def collectSeeds {γ : Type} (env : Env γ) (center : Option γ) (radius : Nat) :
    List String → List Seed → List Seed
  | [], acc => acc
  | q :: qs, acc =>
    if 12 ≤ acc.length then acc
    else collectSeeds env center radius qs
      (acc ++ (env.textSearch q center radius 4).getD [])

/-- The details/filter loop of `_get_fallback_venues`: stop at 3 accepted
records; skip falsy ids, failed details, records outside the city, and —
for non-outdoor with a cuisine set — records the cuisine matcher rejects. -/
def fallbackFilter {γ : Type} (env : Env γ) (city cuisine : String)
    (is_outdoor : Bool) : List Seed → List PlaceDetails → List PlaceDetails
  | [], results => results
  | s :: ss, results =>
    if 3 ≤ results.length then results
    else
      match truthyStr s.place_id with
      | none => fallbackFilter env city cuisine is_outdoor ss results
      | some pid =>
        match env.details pid with
        | none => fallbackFilter env city cuisine is_outdoor ss results
        | some det =>
          if !in_city (det.formatted_address.getD "") city then
            fallbackFilter env city cuisine is_outdoor ss results
          else if !is_outdoor && cuisine ≠ "" && !matches_cuisine det cuisine then
            fallbackFilter env city cuisine is_outdoor ss results
          else fallbackFilter env city cuisine is_outdoor ss (results ++ [det])

/-- Source `_get_fallback_venues`. `audience` is accepted and ignored, as in the
source. -/
def get_fallback_venues {γ : Type} (env : Env γ) (hasKey : Bool)
    (city venue_type audience cuisine : String) (is_outdoor : Bool) :
    List PlaceDetails :=
  if !hasKey then []
  else
    let center := if city ≠ "" then env.geocode city else none
    let queries := fallbackQueries city venue_type cuisine is_outdoor
    let seeds := collectSeeds env center (if is_outdoor then 20000 else 15000)
      queries []
    fallbackFilter env city cuisine is_outdoor seeds []

/-- Python `o or default` for an optional string (both `None` and `""` fall
through to the default). -/
def orDefault (o : Option String) (d : String) : String :=
  match o with
  | some s => if s = "" then d else s
  | none => d

/-- The per-venue markdown parts of `_format_weather_and_venues` (one list
entry per appended part). -/
def venueParts (city : String) (i : Nat) (v : PlaceDetails) : List String :=
  let name := orDefault v.name "Unknown Venue"
  let addr := orDefault v.formatted_address (city ++ " (address not available)")
  let metaBits : List String :=
    (match v.rating with
     | some r =>
       ["⭐ " ++ r ++ "/5" ++
         (match v.user_ratings_total with
          | some n => if n ≠ 0 then " (" ++ toString n ++ " reviews)" else ""
          | none => "")]
     | none => [])
    ++ (match v.price_text with
        | some p => if p ≠ "" then ["💰 " ++ p] else []
        | none => [])
  ["**" ++ toString i ++ ". " ++ name ++ "**", "📌 **Address:** " ++ addr]
  ++ (if metaBits.isEmpty then [] else [joinParts " · " metaBits])
  ++ (match truthyStr v.maps_url with
      | some u => ["🗺️ **Google Maps:** " ++ u]
      | none => [])
  ++ (match truthyStr v.website with
      | some w => ["🌐 **Website:** " ++ w]
      | none => [])
  ++ (if v.weekday_text.isEmpty then []
      else ["🕒 **Working Hours:**\n" ++
        joinParts "\n" (v.weekday_text.map (fun ln => "- " ++ ln))])
  ++ [""]

/-- Source `_format_weather_and_venues`: the weather line, then either the explicit
no-venues notice or the numbered venue blocks. -/
def formatWeatherAndVenues (weather_info : String) (venues : List PlaceDetails)
    (city : String) : String :=
  let head := if weather_info ≠ "" then ["📅 **Weather:** " ++ weather_info, ""] else []
  if venues.isEmpty then
    joinParts "\n"
      (head ++ ["❌ No suitable venues found. Please try different search criteria."])
  else
    joinParts "\n"
      (head ++ ["📍 **Recommended Venues in " ++ city ++ ":**", ""]
        ++ (venues.enumFrom 1).flatMap (fun p => venueParts city p.1 p.2))

/-- A record as emitted by `process_request`: the details dict plus the
`source` and `match_status` keys the orchestrator writes into it. -/
structure SuggestedVenue where
  det : PlaceDetails
  source : String
  match_status : String
deriving DecidableEq

/-- The request context fields `process_request` reads. `guest_count` and
`budget_venue` feed only the prompt for the external model. -/
structure Ctx where
  city : String
  location_type : String
  venue_type : String
  audience : String
  guest_count : String
  budget_venue : String
  cuisine : String
deriving DecidableEq

/-- The dictionary `process_request` returns. -/
structure AgentResult where
  suggestions : List SuggestedVenue
  raw : String
  unified_display : String
  weather_info : String
deriving DecidableEq

/-- Step `names = self._extract_venue_names_from_text(llm_response) if llm_response
else []` — the Python guard also treats an empty response string as falsy. -/
def prNames (llm_response : Option String) : List String :=
  match llm_response with
  | some t => if t = "" then [] else extract_venue_names_from_text t
  | none => []

/-- The resolution loop of `process_request` (step 2 in the source): resolve
each candidate name with the effective cuisine, accept a record when it
exists and (outdoor, or no cuisine requested, or the cuisine matcher accepts
it against the originally requested cuisine), tagging it
`google_places` / `found`. -/
def acceptResolved {γ : Type} (env : Env γ) (hasKey : Bool)
    (city cuisine_effective cuisine : String) (is_outdoor : Bool)
    (names : List String) : List SuggestedVenue :=
  names.filterMap fun n =>
    match search_venue_in_places env hasKey n city cuisine_effective with
    | some det =>
      if is_outdoor || cuisine = "" || matches_cuisine det cuisine then
        some ⟨det, "google_places", "found"⟩
      else none
    | none => none

/-- Tagging of fallback records (`source`/`match_status` writes). -/
def tagFallback (l : List PlaceDetails) : List SuggestedVenue :=
  l.map fun v => ⟨v, "fallback_search", "found"⟩

/-- The suggestion pipeline of `process_request`: resolution loop, fallback
when empty, and the step-4 defensive retry (outdoor with a cuisine hint,
cuisine fully relaxed). -/
def prSuggestions {γ : Type} (env : Env γ) (hasKey : Bool) (ctx : Ctx)
    (llm_response : Option String) : List SuggestedVenue :=
  let city := ctx.city
  let venue_type := pyOr ctx.location_type ctx.venue_type
  let cuisine := ctx.cuisine
  let is_outdoor := is_outdoor_type venue_type
  let cuisine_effective := if is_outdoor then "" else cuisine
  let enriched1 := acceptResolved env hasKey city cuisine_effective cuisine
    is_outdoor (prNames llm_response)
  let enriched2 :=
    if enriched1.isEmpty then
      tagFallback (get_fallback_venues env hasKey city venue_type ctx.audience
        cuisine_effective is_outdoor)
    else enriched1
  if enriched2.isEmpty && is_outdoor && cuisine ≠ "" then
    tagFallback (get_fallback_venues env hasKey city venue_type ctx.audience
      "" true)
  else enriched2

/-- Source `process_request`. The weather line (`_get_weather_line`) and the model
call (`_call_llm_unified`, fed by `_build_search_prompt`) interact only with
external collaborators, so they enter the embedding as the inputs
`weather_info` and `llm_response` (`none` = model failure). The redundant
`if names:` guard around the resolution loop is dropped (an empty list loops
zero times either way); writing `source`/`match_status` into each dict is
modelled by the `SuggestedVenue` wrapper. -/
def process_request {γ : Type} (env : Env γ) (hasKey : Bool) (ctx : Ctx)
    (weather_info : String) (llm_response : Option String) : AgentResult :=
  let enriched := prSuggestions env hasKey ctx llm_response
  { suggestions := enriched
    raw :=
      (match llm_response with
       | some t => if t = "" then "No LLM response available" else t
       | none => "No LLM response available")
    unified_display :=
      formatWeatherAndVenues weather_info (enriched.map (·.det)) ctx.city
    weather_info := weather_info }

/-- Spec-side comparison pipeline for the retry claim: identical to
`prSuggestions` but with the step-4 defensive retry removed. -/
def prSuggestionsNoRetry {γ : Type} (env : Env γ) (hasKey : Bool) (ctx : Ctx)
    (llm_response : Option String) : List SuggestedVenue :=
  let city := ctx.city
  let venue_type := pyOr ctx.location_type ctx.venue_type
  let cuisine := ctx.cuisine
  let is_outdoor := is_outdoor_type venue_type
  let cuisine_effective := if is_outdoor then "" else cuisine
  let enriched1 := acceptResolved env hasKey city cuisine_effective cuisine
    is_outdoor (prNames llm_response)
  if enriched1.isEmpty then
    tagFallback (get_fallback_venues env hasKey city venue_type ctx.audience
      cuisine_effective is_outdoor)
  else enriched1

/-- Spec-side comparison orchestrator for the retry claim: `process_request`
without the defensive retry step. -/
def process_request_without_retry {γ : Type} (env : Env γ) (hasKey : Bool)
    (ctx : Ctx) (weather_info : String) (llm_response : Option String) :
    AgentResult :=
  let enriched := prSuggestionsNoRetry env hasKey ctx llm_response
  { suggestions := enriched
    raw :=
      (match llm_response with
       | some t => if t = "" then "No LLM response available" else t
       | none => "No LLM response available")
    unified_display :=
      formatWeatherAndVenues weather_info (enriched.map (·.det)) ctx.city
    weather_info := weather_info }

/-- A details record with every optional field absent. -/
def baseDet : PlaceDetails :=
  { place_id := none, name := none, formatted_address := none, rating := none,
    user_ratings_total := none, price_text := none, website := none,
    maps_url := none, weekday_text := [], open_now := none,
    serves_cuisine := none, editorial_overview := none, types := none }

/-- Scenario D, first record: name overlaps the candidate, address in the
city, cuisine not matched. -/
def detD1 : PlaceDetails :=
  { baseDet with
    place_id := some "p1"
    name := some "Le Jardin Restaurant"
    formatted_address := some "Ankara Street 1" }

/-- Scenario D, second record: no name overlap, no city match, cuisine
matched (name contains the requested cuisine keyword). -/
def detD2 : PlaceDetails :=
  { baseDet with
    place_id := some "p2"
    name := some "French Bistro"
    formatted_address := some "Paris" }

def envD : Env Unit :=
  { geocode := fun _ => none
    textSearch := fun q _ _ _ =>
      if q = "Le Jardin Ankara" then
        some [⟨some "p1", some "Le Jardin Restaurant"⟩,
              ⟨some "p2", some "French Bistro"⟩]
      else some []
    details := fun pid =>
      if pid = "p1" then some detD1
      else if pid = "p2" then some detD2 else none }

/-- A record scoring −2 for candidate "X" in Ankara with cuisine "French":
no word overlap, no city match, cuisine mismatch. -/
def detC1 : PlaceDetails :=
  { baseDet with
    place_id := some "p3"
    name := some "Zzz"
    formatted_address := some "Paris" }

def envC1 : Env Unit :=
  { geocode := fun _ => none
    textSearch := fun q _ _ _ =>
      if q = "X Ankara" then some [⟨some "p3", none⟩] else some []
    details := fun _ => some detC1 }

/-- A fallback record for the orchestrator fixtures. -/
def detW : PlaceDetails :=
  { baseDet with
    place_id := some "w1"
    name := some "Foo Lokanta"
    formatted_address := some "Foo Street Ankara" }

def ctxW : Ctx :=
  { city := "Ankara", location_type := "", venue_type := "Indoor",
    audience := "family", guest_count := "", budget_venue := "", cuisine := "" }

def envW : Env Unit :=
  { geocode := fun _ => none
    textSearch := fun q _ _ _ =>
      if q = "restaurant Ankara" then some [⟨some "w1", some "Foo Lokanta"⟩]
      else some []
    details := fun pid => if pid = "w1" then some detW else none }

/-- The stream of successfully resolved records, in the resolver's traversal
order: the four query variants in order, each query's seeds in order, with
failed searches, falsy ids and failed details skipped. -/
def resolvedStream {γ : Type} (env : Env γ) (venue_name city : String) :
    List PlaceDetails :=
  (resolverQueries venue_name city).flatMap fun q =>
    ((env.textSearch q (if city ≠ "" then env.geocode city else none)
      20000 8).getD []).filterMap fun s => resolveSeed env s

/-- Spec-side greedy selection: a single running best over the stream,
starting at the sentinel −1, displaced only by a strictly higher score. -/
def pickBest (score : PlaceDetails → Int) (stream : List PlaceDetails) :
    Int × Option PlaceDetails :=
  stream.foldl (fun b d => if score d > b.1 then (score d, some d) else b)
    (-1, none)

/-- All raw emphasis captures the extractor considers: the whole-text pass,
then the first capture of each stripped bullet line. -/
def rawCaptures (text : String) : List String :=
  findBold text
    ++ (pySplitLines text).filterMap fun line =>
      if startsBullet (pyStrip line) then (findBold (pyStrip line)).head?
      else none

/-- The text contains an emphasis-markup span: `**`, a nonempty star-free
body, `**`. -/
def hasBoldSpan (l : List Char) : Prop :=
  ∃ u w v, l = u ++ '*' :: '*' :: (w ++ '*' :: '*' :: v)
    ∧ w ≠ [] ∧ ∀ c ∈ w, c ≠ '*'

/-- Witness for C2's cuisine-suppression conjunct at a concrete outdoor
context. -/
def ctxO : Ctx :=
  { city := "Izmir", location_type := "Outdoor", venue_type := "",
    audience := "friends", guest_count := "", budget_venue := "",
    cuisine := "Italian" }

theorem hasPre_iff (pat l : List Char) :
    hasPre pat l = true ↔ ∃ v, l = pat ++ v := by
  induction pat generalizing l with
  | nil =>
    cases l <;> simp [hasPre]
  | cons a as ih =>
    cases l with
    | nil => simp [hasPre]
    | cons b bs =>
      simp only [hasPre, Bool.and_eq_true, decide_eq_true_eq, ih]
      constructor
      · rintro ⟨rfl, v, rfl⟩; exact ⟨v, rfl⟩
      · rintro ⟨v, h⟩
        injection h with h1 h2
        exact ⟨h1.symm, v, h2⟩

theorem hasSub_iff (pat hay : List Char) :
    hasSub pat hay = true ↔ ∃ u v, hay = u ++ pat ++ v := by
  induction hay with
  | nil =>
    simp only [hasSub, List.isEmpty_iff]
    constructor
    · rintro rfl; exact ⟨[], [], rfl⟩
    · rintro ⟨u, v, h⟩
      rcases List.append_eq_nil.mp ((List.append_eq_nil).mp h.symm).1 with ⟨_, h2⟩
      exact h2
  | cons b bs ih =>
    simp only [hasSub, Bool.or_eq_true, hasPre_iff, ih]
    constructor
    · rintro (⟨v, h⟩ | ⟨u, v, h⟩)
      · exact ⟨[], v, by simpa using h⟩
      · exact ⟨b :: u, v, by simp [h]⟩
    · rintro ⟨u, v, h⟩
      cases u with
      | nil => exact Or.inl ⟨v, by simpa using h⟩
      | cons x xs =>
        injection h with h1 h2
        exact Or.inr ⟨xs, v, h2⟩

theorem tableLookup_some_mem {ps : List (Char × Char)} {c v : Char}
    (h : tableLookup ps c = some v) : (c, v) ∈ ps := by
  induction ps with
  | nil => simp [tableLookup] at h
  | cons p rest ih =>
    obtain ⟨k, w⟩ := p
    rw [tableLookup] at h
    dsimp only at h
    split at h
    · rename_i heq
      injection h with h2
      subst heq
      subst h2
      exact List.mem_cons_self _ _
    · exact List.mem_cons_of_mem _ (ih h)

theorem trKeys_lookup_isSome : ∀ c ∈ trKeys, (tableLookup trPairs c).isSome := by
  decide

theorem trPairs_snd_mem : ∀ p ∈ trPairs, p.2 ∈ trOuts := by decide

theorem lowerPairs_snd : ∀ p ∈ lowerPairs, p.2 ∈ asciiLowers ∨ p.1 ∈ trKeys := by
  decide

theorem trTable_cases (c : Char) :
    trTable c ∈ trOuts ∨ (trTable c = c ∧ c ∉ trKeys) := by
  rcases h : tableLookup trPairs c with _ | v
  · right
    refine ⟨by simp [trTable, h], fun hc => ?_⟩
    have := trKeys_lookup_isSome c hc
    rw [h] at this
    simp at this
  · left
    have hm := tableLookup_some_mem h
    have := trPairs_snd_mem _ hm
    simpa [trTable, h] using this

theorem charLower_cases (c : Char) :
    charLower c ∈ asciiLowers ∨ c ∈ trKeys ∨ charLower c = c := by
  rcases h : tableLookup lowerPairs c with _ | v
  · right; right; simp [charLower, h]
  · have hm := tableLookup_some_mem h
    rcases lowerPairs_snd _ hm with h2 | h2
    · left; simpa [charLower, h] using h2
    · right; left; exact h2

theorem fixed_on_trOuts : ∀ y ∈ trOuts, trTable y = y ∧ charLower y = y := by decide

theorem fixed_on_asciiLowers :
    ∀ y ∈ asciiLowers, trTable y = y ∧ charLower y = y := by decide

theorem charLower_idem_on_trKeys :
    ∀ c ∈ trKeys, charLower (charLower c) = charLower c := by decide

theorem charLower_idem (c : Char) : charLower (charLower c) = charLower c := by
  rcases charLower_cases c with h | h | h
  · exact (fixed_on_asciiLowers _ h).2
  · exact charLower_idem_on_trKeys _ h
  · rw [h, h]

theorem trTable_charLower_trTable (c : Char) :
    trTable (charLower (trTable c)) = charLower (trTable c) := by
  rcases trTable_cases c with h | ⟨h1, h2⟩
  · rw [(fixed_on_trOuts _ h).2]
    exact (fixed_on_trOuts _ h).1
  · rw [h1]
    rcases charLower_cases c with h | h | h
    · exact (fixed_on_asciiLowers _ h).1
    · exact absurd h h2
    · rw [h, h1]

theorem normChar_idem (c : Char) :
    charLower (trTable (charLower (trTable c))) = charLower (trTable c) := by
  rw [trTable_charLower_trTable, charLower_idem]

theorem toList_append (a b : String) : (a ++ b).toList = a.toList ++ b.toList :=
  rfl

/-- C8: text normalization is idempotent — normalizing the result of
normalizing any string yields the same string as normalizing it once
(the Turkish substitution table composed with case folding is a fixed
point on its own output). -/
theorem normalize_idempotent (s : String) :
    normalize_tr (normalize_tr s) = normalize_tr s := by
  show String.mk (((s.toList.map fun c => charLower (trTable c)).map
      fun c => charLower (trTable c))) = _
  congr 1
  induction s.toList with
  | nil => rfl
  | cons c cs ih => simp only [List.map_cons, ih, normChar_idem]

/-- C7 (amended): the city-containment test normalizes both strings but is
one-directional — it returns true exactly when both strings are nonempty and
the normalized city occurs contiguously inside the normalized address (it
does not also test the address inside the city). -/
theorem in_city_unidirectional (addr city : String) :
    in_city addr city = true ↔
      addr ≠ "" ∧ city ≠ "" ∧
        ∃ u v, (normalize_tr addr).toList
          = u ++ (normalize_tr city).toList ++ v := by
  unfold in_city
  split
  · rename_i h
    simp only [Bool.false_eq_true, false_iff]
    rintro ⟨h1, h2, _⟩
    rcases h with h | h
    exacts [h1 h, h2 h]
  · rename_i h
    push_neg at h
    rw [pyIn, hasSub_iff]
    constructor
    · rintro ⟨u, v, hh⟩; exact ⟨h.1, h.2, u, v, hh⟩
    · rintro ⟨_, _, u, v, hh⟩; exact ⟨u, v, hh⟩

/-- C7 counterexample: for address `"a"` and city `"ab"`, the normalized
address occurs inside the normalized city (so a bidirectional test would
return true), yet `_in_city` returns false. -/
theorem in_city_bidirectional_counterexample :
    in_city "a" "ab" = false ∧
      (∃ u v, (normalize_tr "ab").toList
        = u ++ (normalize_tr "a").toList ++ v) := by
  refine ⟨by decide, [], ['b'], by decide⟩

theorem fallbackFilter_outdoor {γ : Type} (env : Env γ) (city c1 c2 : String)
    (ss : List Seed) (acc : List PlaceDetails) :
    fallbackFilter env city c1 true ss acc
      = fallbackFilter env city c2 true ss acc := by
  induction ss generalizing acc with
  | nil => rfl
  | cons s ss ih =>
    rw [fallbackFilter, fallbackFilter]
    by_cases h3 : 3 ≤ acc.length
    · rw [if_pos h3, if_pos h3]
    · rw [if_neg h3, if_neg h3]
      rcases htr : truthyStr s.place_id with _ | pid
      · dsimp only
        exact ih acc
      · dsimp only
        rcases hdet : env.details pid with _ | det
        · dsimp only
          exact ih acc
        · dsimp only
          simp only [Bool.not_true, Bool.false_and, Bool.false_eq_true,
            if_false]
          split
          · exact ih acc
          · exact ih (acc ++ [det])

/-- C3: with `isOutdoor = true` the fallback strategy's result is the same
for any two cuisine categories — outdoor queries carry no cuisine terms and
the cuisine filter is never applied. -/
theorem fallback_outdoor_cuisine_independent {γ : Type} (env : Env γ)
    (hasKey : Bool) (city venue_type audience c1 c2 : String) :
    get_fallback_venues env hasKey city venue_type audience c1 true
      = get_fallback_venues env hasKey city venue_type audience c2 true := by
  rw [get_fallback_venues, get_fallback_venues]
  split
  · rfl
  · rw [fallbackQueries, fallbackQueries]
    simp only [if_true]
    exact fallbackFilter_outdoor env city c1 c2 _ []

theorem in_city_empty_city (addr : String) : in_city addr "" = false := by
  simp [in_city]

theorem fallbackFilter_empty_city {γ : Type} (env : Env γ) (cuisine : String)
    (is_outdoor : Bool) (ss : List Seed) (acc : List PlaceDetails) :
    fallbackFilter env "" cuisine is_outdoor ss acc = acc := by
  induction ss generalizing acc with
  | nil => rfl
  | cons s ss ih =>
    rw [fallbackFilter]
    split
    · rfl
    · rcases htr : truthyStr s.place_id with _ | pid
      · dsimp only
        exact ih acc
      · dsimp only
        rcases hdet : env.details pid with _ | det
        · dsimp only
          exact ih acc
        · dsimp only
          simp only [in_city_empty_city, Bool.not_false, if_true]
          exact ih acc

/-- C10: with an empty city the city test rejects every address, the
fallback strategy returns the empty list whatever its other arguments and
whatever the collaborators return, and the resolver's score never contains
the +2 city bonus (it is exactly word overlap plus the cuisine
adjustment). -/
theorem empty_city_no_match {γ : Type} (env : Env γ) :
    (∀ addr, in_city addr "" = false) ∧
    (∀ hasKey venue_type audience cuisine is_outdoor,
      get_fallback_venues env hasKey "" venue_type audience cuisine is_outdoor
        = []) ∧
    (∀ venue_name ckey det,
      scoreRecord venue_name "" ckey det =
        ((((pyWords (pyLower venue_name)).dedup.filter fun w =>
          (pyWords (pyLower (det.name.getD ""))).contains w).length : Int)
          + (if ckey ≠ "" then (if matches_cuisine det ckey then 3 else -2)
             else 0))) := by
  refine ⟨in_city_empty_city, ?_, ?_⟩
  · intro hasKey venue_type audience cuisine is_outdoor
    rw [get_fallback_venues]
    split
    · rfl
    · exact fallbackFilter_empty_city env cuisine is_outdoor _ []
  · intro venue_name ckey det
    rw [scoreRecord]
    rw [in_city_empty_city]
    simp

theorem prSuggestions_eq_noRetry {γ : Type} (env : Env γ) (hasKey : Bool)
    (ctx : Ctx) (llm : Option String) :
    prSuggestions env hasKey ctx llm = prSuggestionsNoRetry env hasKey ctx llm := by
  by_cases ho : is_outdoor_type (pyOr ctx.location_type ctx.venue_type) = true
  · simp only [prSuggestions, prSuggestionsNoRetry, ho, if_true, Bool.and_true,
      Bool.true_and, eq_self_iff_true]
    rcases he1 : (acceptResolved env hasKey ctx.city "" ctx.cuisine true
        (prNames llm)).isEmpty with _ | _
    · simp only [he1, Bool.false_eq_true, if_false, Bool.false_and]
    · simp only [he1, eq_self_iff_true, if_true]
      split <;> rfl
  · rw [Bool.not_eq_true] at ho
    simp only [prSuggestions, prSuggestionsNoRetry, ho, Bool.false_eq_true,
      if_false, Bool.and_false, Bool.false_and]

/-- C9: the defensive retry (step 9) never changes the result — when it can
trigger, the preceding fallback call was already made with the same
arguments (empty cuisine, outdoor), so the deterministic fallback returns
the same empty list and the orchestrator's output is identical with the
retry step removed. -/
theorem retry_noop {γ : Type} (env : Env γ) (hasKey : Bool) (ctx : Ctx)
    (weather_info : String) (llm : Option String) :
    process_request env hasKey ctx weather_info llm
      = process_request_without_retry env hasKey ctx weather_info llm := by
  simp only [process_request, process_request_without_retry,
    prSuggestions_eq_noRetry]

theorem filterMap_none {α β : Type} (l : List α) (f : α → Option β)
    (h : ∀ a, f a = none) : l.filterMap f = [] := by
  induction l with
  | nil => rfl
  | cons a as ih => simp [List.filterMap_cons, h a, ih]

theorem acceptResolved_nokey {γ : Type} (env : Env γ)
    (city ce cu : String) (o : Bool) (names : List String) :
    acceptResolved env false city ce cu o names = [] :=
  filterMap_none names _ fun _ => rfl

theorem get_fallback_venues_nokey {γ : Type} (env : Env γ)
    (city vt aud cu : String) (o : Bool) :
    get_fallback_venues env false city vt aud cu o = [] := rfl

theorem prSuggestions_no_key {γ : Type} (env : Env γ) (ctx : Ctx)
    (llm : Option String) : prSuggestions env false ctx llm = [] := by
  simp only [prSuggestions, acceptResolved_nokey, get_fallback_venues_nokey,
    tagFallback, List.map_nil, List.isEmpty_nil, if_true]
  split <;> rfl

theorem joinParts_last_decomp (sep x : String) (parts : List String) :
    ∃ u, (joinParts sep (parts ++ [x])).toList = u ++ x.toList := by
  induction parts with
  | nil => exact ⟨[], rfl⟩
  | cons p ps ih =>
    cases ps with
    | nil => exact ⟨(p ++ sep).toList, rfl⟩
    | cons q rest =>
      obtain ⟨u, hu⟩ := ih
      refine ⟨(p ++ sep).toList ++ u, ?_⟩
      show ((p ++ sep) ++ joinParts sep ((q :: rest) ++ [x])).toList = _
      rw [toList_append, hu, List.append_assoc]

theorem formatWeatherAndVenues_empty (w city : String) :
    pyIn "❌ No suitable venues found. Please try different search criteria."
      (formatWeatherAndVenues w [] city) = true := by
  rw [formatWeatherAndVenues]
  simp only [List.isEmpty_nil, if_true]
  rw [pyIn, hasSub_iff]
  obtain ⟨u, hu⟩ := joinParts_last_decomp "\n"
    "❌ No suitable venues found. Please try different search criteria."
    (if w ≠ "" then ["📅 **Weather:** " ++ w, ""] else [])
  exact ⟨u, [], by rw [List.append_nil]; exact hu⟩

/-- C4: with no lookup credentials the resolver returns absent and the
fallback strategy the empty list, for all other inputs and all collaborator
behaviour; the orchestrated request still completes, returning an empty
suggestion list and the explicit no-venues notice rather than an error. -/
theorem no_credentials_degrades {γ : Type} (env : Env γ) (ctx : Ctx)
    (w : String) (llm : Option String)
    (venue_name city venue_type audience cuisine : String) (is_outdoor : Bool) :
    search_venue_in_places env false venue_name city cuisine = none ∧
    get_fallback_venues env false city venue_type audience cuisine is_outdoor
      = [] ∧
    (process_request env false ctx w llm).suggestions = [] ∧
    pyIn "❌ No suitable venues found. Please try different search criteria."
      ((process_request env false ctx w llm).unified_display) = true := by
  refine ⟨rfl, rfl, prSuggestions_no_key env ctx llm, ?_⟩
  show pyIn _ (formatWeatherAndVenues w
    ((prSuggestions env false ctx llm).map (·.det)) ctx.city) = true
  rw [prSuggestions_no_key]
  exact formatWeatherAndVenues_empty w ctx.city

theorem fallbackFilter_length_le {γ : Type} (env : Env γ) (city cu : String)
    (o : Bool) (ss : List Seed) :
    ∀ acc : List PlaceDetails, acc.length ≤ 3 →
      (fallbackFilter env city cu o ss acc).length ≤ 3 := by
  induction ss with
  | nil =>
    intro acc h
    rw [fallbackFilter]
    exact h
  | cons s ss ih =>
    intro acc h
    rw [fallbackFilter]
    split
    · exact h
    · rename_i h3
      rcases htr : truthyStr s.place_id with _ | pid
      · dsimp only
        exact ih acc h
      · dsimp only
        rcases hdet : env.details pid with _ | det
        · dsimp only
          exact ih acc h
        · dsimp only
          split
          · exact ih acc h
          · split
            · exact ih acc h
            · refine ih (acc ++ [det]) ?_
              rw [List.length_append]
              simp only [List.length_cons, List.length_nil]
              omega

theorem get_fallback_venues_length_le {γ : Type} (env : Env γ) (hasKey : Bool)
    (city vt aud cu : String) (o : Bool) :
    (get_fallback_venues env hasKey city vt aud cu o).length ≤ 3 := by
  rw [get_fallback_venues]
  split
  · simp
  · exact fallbackFilter_length_le env city cu o _ [] (by simp)

theorem extract_length_le (text : String) :
    (extract_venue_names_from_text text).length ≤ 3 := by
  rw [extract_venue_names_from_text]
  split
  · simp
  · rw [List.length_take]
    exact min_le_left _ _

theorem prNames_length_le (llm : Option String) : (prNames llm).length ≤ 3 := by
  rcases llm with _ | t
  · simp [prNames]
  · rw [prNames]
    split
    · simp
    · exact extract_length_le t

theorem mem_tagFallback {l : List PlaceDetails} {r : SuggestedVenue} :
    r ∈ tagFallback l ↔ ∃ v ∈ l, r = ⟨v, "fallback_search", "found"⟩ := by
  rw [tagFallback, List.mem_map]
  constructor
  · rintro ⟨v, hv, rfl⟩
    exact ⟨v, hv, rfl⟩
  · rintro ⟨v, hv, rfl⟩
    exact ⟨v, hv, rfl⟩

theorem mem_acceptResolved_iff {γ : Type} (env : Env γ) (hasKey : Bool)
    (city ce cu : String) (o : Bool) (names : List String) (r : SuggestedVenue) :
    r ∈ acceptResolved env hasKey city ce cu o names ↔
      ∃ n ∈ names,
        search_venue_in_places env hasKey n city ce = some r.det ∧
        (o = true ∨ cu = "" ∨ matches_cuisine r.det cu = true) ∧
        r.source = "google_places" ∧ r.match_status = "found" := by
  obtain ⟨d, src, st⟩ := r
  rw [acceptResolved, List.mem_filterMap]
  constructor
  · rintro ⟨n, hn, hfn⟩
    rcases hs : search_venue_in_places env hasKey n city ce with _ | det
    · rw [hs] at hfn
      exact absurd hfn (by simp)
    · rw [hs] at hfn
      dsimp only at hfn
      split at hfn
      · rename_i hcond
        injection hfn with hfn
        injection hfn with h1 h2 h3
        subst h1
        subst h2
        subst h3
        refine ⟨n, hn, hs, ?_, rfl, rfl⟩
        simp only [Bool.or_eq_true, decide_eq_true_eq] at hcond
        rcases hcond with (ho | hcu) | hm
        · exact Or.inl ho
        · exact Or.inr (Or.inl hcu)
        · exact Or.inr (Or.inr hm)
      · exact absurd hfn (by simp)
  · rintro ⟨n, hn, hs, hcond, hsrc, hst⟩
    dsimp only at hs hcond hsrc hst
    subst hsrc
    subst hst
    refine ⟨n, hn, ?_⟩
    rw [hs]
    dsimp only
    have hc : (o || decide (cu = "") || matches_cuisine d cu) = true := by
      simp only [Bool.or_eq_true, decide_eq_true_eq]
      rcases hcond with ho | hcu | hm
      · exact Or.inl (Or.inl ho)
      · exact Or.inl (Or.inr hcu)
      · exact Or.inr hm
    rw [if_pos hc]

theorem prSuggestions_cases {γ : Type} (env : Env γ) (hasKey : Bool)
    (ctx : Ctx) (llm : Option String) :
    (∃ cu o, prSuggestions env hasKey ctx llm
        = tagFallback (get_fallback_venues env hasKey ctx.city
            (pyOr ctx.location_type ctx.venue_type) ctx.audience cu o)) ∨
    prSuggestions env hasKey ctx llm
        = acceptResolved env hasKey ctx.city
            (if is_outdoor_type (pyOr ctx.location_type ctx.venue_type) then ""
             else ctx.cuisine)
            ctx.cuisine (is_outdoor_type (pyOr ctx.location_type ctx.venue_type))
            (prNames llm) := by
  simp only [prSuggestions]
  repeat' split
  all_goals first
    | exact Or.inr rfl
    | exact Or.inl ⟨_, _, rfl⟩

theorem prSuggestions_length_le {γ : Type} (env : Env γ) (hasKey : Bool)
    (ctx : Ctx) (llm : Option String) :
    (prSuggestions env hasKey ctx llm).length ≤ 3 := by
  rcases prSuggestions_cases env hasKey ctx llm with ⟨cu, o, heq⟩ | heq
  · rw [heq, tagFallback, List.length_map]
    exact get_fallback_venues_length_le env hasKey _ _ _ _ _
  · rw [heq, acceptResolved]
    exact le_trans (List.length_filterMap_le _ _) (prNames_length_le llm)

theorem prSuggestions_mem {γ : Type} (env : Env γ) (hasKey : Bool) (ctx : Ctx)
    (llm : Option String) (r : SuggestedVenue)
    (hr : r ∈ prSuggestions env hasKey ctx llm) :
    r.match_status = "found" ∧
      ((∃ n, search_venue_in_places env hasKey n ctx.city
          (if is_outdoor_type (pyOr ctx.location_type ctx.venue_type) then ""
           else ctx.cuisine) = some r.det) ∨
        ∃ cu o, r.det ∈ get_fallback_venues env hasKey ctx.city
          (pyOr ctx.location_type ctx.venue_type) ctx.audience cu o) := by
  rcases prSuggestions_cases env hasKey ctx llm with ⟨cu, o, heq⟩ | heq
  · rw [heq] at hr
    rcases mem_tagFallback.mp hr with ⟨v, hv, rfl⟩
    exact ⟨rfl, Or.inr ⟨cu, o, hv⟩⟩
  · rw [heq] at hr
    obtain ⟨n, _, hs, _, _, hst⟩ :=
      (mem_acceptResolved_iff env hasKey ctx.city _ ctx.cuisine _ _ r).mp hr
    exact ⟨hst, Or.inl ⟨n, hs⟩⟩

/-- C5: the orchestrator's suggestion list never exceeds 3 records, every
record in it carries match status `found`, every record was produced by the
resolver or by a fallback call, and the fallback strategy itself never
returns more than 3 records. -/
theorem suggestions_bounded_found {γ : Type} (env : Env γ) (hasKey : Bool)
    (ctx : Ctx) (w : String) (llm : Option String) :
    (process_request env hasKey ctx w llm).suggestions.length ≤ 3 ∧
    (∀ city vt aud cu o,
      (get_fallback_venues env hasKey city vt aud cu o).length ≤ 3) ∧
    ∀ r ∈ (process_request env hasKey ctx w llm).suggestions,
      r.match_status = "found" ∧
      ((∃ n, search_venue_in_places env hasKey n ctx.city
          (if is_outdoor_type (pyOr ctx.location_type ctx.venue_type) then ""
           else ctx.cuisine) = some r.det) ∨
        ∃ cu o, r.det ∈ get_fallback_venues env hasKey ctx.city
          (pyOr ctx.location_type ctx.venue_type) ctx.audience cu o) :=
  ⟨prSuggestions_length_le env hasKey ctx llm,
   fun city vt aud cu o => get_fallback_venues_length_le env hasKey city vt aud cu o,
   fun r hr => prSuggestions_mem env hasKey ctx llm r hr⟩

/-- Witness for C5 at a concrete run: the fallback record produced by
`envW`/`ctxW` is in the suggestion list, carries status `found`, and comes
from a fallback call. -/
theorem suggestions_bounded_found_witness :
    (⟨detW, "fallback_search", "found"⟩ : SuggestedVenue).match_status
        = "found" ∧
      ((∃ n, search_venue_in_places envW true n ctxW.city
          (if is_outdoor_type (pyOr ctxW.location_type ctxW.venue_type) then ""
           else ctxW.cuisine)
          = some (⟨detW, "fallback_search", "found"⟩ : SuggestedVenue).det) ∨
        ∃ cu o, (⟨detW, "fallback_search", "found"⟩ : SuggestedVenue).det
          ∈ get_fallback_venues envW true ctxW.city
            (pyOr ctxW.location_type ctxW.venue_type) ctxW.audience cu o) :=
  (suggestions_bounded_found envW true ctxW "sunny" none).2.2
    ⟨detW, "fallback_search", "found"⟩ (by decide)

theorem acceptResolved_outdoor {γ : Type} (env : Env γ) (hasKey : Bool)
    (city ce c1 c2 : String) (names : List String) :
    acceptResolved env hasKey city ce c1 true names
      = acceptResolved env hasKey city ce c2 true names := by
  induction names with
  | nil => rfl
  | cons n ns ih =>
    rw [acceptResolved, List.filterMap_cons, acceptResolved,
      List.filterMap_cons]
    rw [acceptResolved, acceptResolved] at ih
    rcases hs : search_venue_in_places env hasKey n city ce with _ | det
    · exact ih
    · exact congrArg
        (List.cons ⟨det, "google_places", "found"⟩) ih

/-- C2 (amended): the outdoor flag holds exactly when the venue-type,
stripped of surrounding whitespace, equals "outdoor" case-insensitively; a
record enters the resolution-step list exactly when the resolver (called
with the effective cuisine — empty when outdoor, the requested cuisine
otherwise) succeeded and (outdoor, or no cuisine requested, or the cuisine
matcher accepts the record against the originally requested cuisine); and
for an outdoor venue-type the whole suggestion pipeline is independent of
the requested cuisine. -/
theorem orchestrator_outdoor_cuisine {γ : Type} (env : Env γ) (hasKey : Bool)
    (ctx : Ctx) (llm : Option String) :
    (is_outdoor_type (pyOr ctx.location_type ctx.venue_type) = true
      ↔ pyLower (pyStrip (pyOr ctx.location_type ctx.venue_type))
          = pyLower "outdoor") ∧
    (∀ r : SuggestedVenue,
      r ∈ acceptResolved env hasKey ctx.city
            (if is_outdoor_type (pyOr ctx.location_type ctx.venue_type) then ""
             else ctx.cuisine)
            ctx.cuisine (is_outdoor_type (pyOr ctx.location_type ctx.venue_type))
            (prNames llm)
        ↔ ∃ n ∈ prNames llm,
            search_venue_in_places env hasKey n ctx.city
              (if is_outdoor_type (pyOr ctx.location_type ctx.venue_type) then ""
               else ctx.cuisine) = some r.det
            ∧ (is_outdoor_type (pyOr ctx.location_type ctx.venue_type) = true
               ∨ ctx.cuisine = ""
               ∨ matches_cuisine r.det ctx.cuisine = true)
            ∧ r.source = "google_places" ∧ r.match_status = "found") ∧
    (is_outdoor_type (pyOr ctx.location_type ctx.venue_type) = true →
      ∀ c1 c2, prSuggestions env hasKey { ctx with cuisine := c1 } llm
        = prSuggestions env hasKey { ctx with cuisine := c2 } llm) := by
  refine ⟨?_,
    fun r => mem_acceptResolved_iff env hasKey ctx.city _ ctx.cuisine _ _ r,
    ?_⟩
  · rw [show pyLower "outdoor" = "outdoor" from rfl]
    simp [is_outdoor_type]
  · intro ho c1 c2
    rw [prSuggestions_eq_noRetry, prSuggestions_eq_noRetry]
    simp only [prSuggestionsNoRetry]
    rw [ho]
    simp only [eq_self_iff_true, if_true]
    rw [acceptResolved_outdoor env hasKey ctx.city "" c1 c2 (prNames llm)]

/-- C2 counterexample: the venue type `" outdoor"` (leading space) is not
equal to "outdoor" case-insensitively, yet `_is_outdoor_type` accepts it —
the code also strips surrounding whitespace, which the claim omits. -/
theorem outdoor_strip_counterexample :
    is_outdoor_type " outdoor" = true ∧
      ¬ (pyLower " outdoor" = pyLower "outdoor") := ⟨by decide, by decide⟩

theorem foldl_congr_fun {α σ : Type} {f g : σ → α → σ}
    (h : ∀ s a, f s a = g s a) (l : List α) (init : σ) :
    l.foldl f init = l.foldl g init := by
  induction l generalizing init with
  | nil => rfl
  | cons a as ih =>
    rw [List.foldl_cons, List.foldl_cons, h]
    exact ih _

theorem foldl_flatMap_my {α β σ : Type} (f : α → List β) (g : σ → β → σ)
    (l : List α) : ∀ init,
    (l.flatMap f).foldl g init = l.foldl (fun s a => (f a).foldl g s) init := by
  induction l with
  | nil => intro init; rfl
  | cons a as ih =>
    intro init
    rw [List.flatMap_cons, List.foldl_append, List.foldl_cons]
    exact ih _

theorem foldl_filterMap_my {α β σ : Type} (f : α → Option β) (g : σ → β → σ)
    (l : List α) : ∀ init,
    (l.filterMap f).foldl g init
      = l.foldl (fun s a => match f a with | some b => g s b | none => s)
          init := by
  induction l with
  | nil => intro init; rfl
  | cons a as ih =>
    intro init
    rw [List.filterMap_cons, List.foldl_cons]
    rcases h : f a with _ | b
    · exact ih _
    · show List.foldl g init (b :: List.filterMap f as)
        = List.foldl
            (fun s a => match f a with | some b => g s b | none => s)
            (g init b) as
      rw [List.foldl_cons]
      exact ih _

theorem resolver_eq_pickBest {γ : Type} (env : Env γ)
    (venue_name city cuisine : String) :
    search_venue_in_places env true venue_name city cuisine
      = (pickBest (scoreRecord venue_name city (pyLower (pyStrip cuisine)))
          (resolvedStream env venue_name city)).2 := by
  rw [search_venue_in_places]
  simp only [Bool.not_true, Bool.false_eq_true, if_false]
  rw [pickBest, resolvedStream, foldl_flatMap_my]
  congr 1
  refine foldl_congr_fun (fun b q => ?_) _ _
  rcases h : env.textSearch q (if city ≠ "" then env.geocode city else none)
      20000 8 with _ | seeds
  · rfl
  · dsimp only [Option.getD]
    rw [searchFold, foldl_filterMap_my]
    refine foldl_congr_fun (fun b2 s => ?_) seeds b
    rcases hr : resolveSeed env s with _ | det <;> rfl

theorem pickBest_fst (score : PlaceDetails → Int) (stream : List PlaceDetails) :
    (pickBest score stream).1
      = stream.foldl (fun m d => max m (score d)) (-1) := by
  rw [pickBest]
  suffices h : ∀ b : Int × Option PlaceDetails,
      (stream.foldl
        (fun b d => if score d > b.1 then (score d, some d) else b) b).1
        = stream.foldl (fun m d => max m (score d)) b.1 from h ((-1 : Int), none)
  intro b
  induction stream generalizing b with
  | nil => rfl
  | cons d ds ih =>
    rw [List.foldl_cons, List.foldl_cons, ih]
    congr 1
    split
    · rename_i hgt
      exact (max_eq_right (le_of_lt hgt)).symm
    · rename_i hle
      exact (max_eq_left (not_lt.mp hle)).symm

/-- C1 (amended): with credentials, the resolver performs exactly the
spec's greedy global-best selection over the stream of resolved records —
scored as word overlap + city bonus + cuisine adjustment — starting from
the sentinel −1, a later record displacing the best only on a strictly
higher score; the running best's score is the maximum of −1 and all
stream scores (so a record whose score does not exceed −1 is never
returned); and the scenario-D example evaluates as specified, the
cuisine-matching competitor winning 3 against 2. -/
theorem resolver_global_best {γ : Type} (env : Env γ)
    (venue_name city cuisine : String) :
    (search_venue_in_places env true venue_name city cuisine
      = (pickBest (scoreRecord venue_name city (pyLower (pyStrip cuisine)))
          (resolvedStream env venue_name city)).2) ∧
    ((pickBest (scoreRecord venue_name city (pyLower (pyStrip cuisine)))
        (resolvedStream env venue_name city)).1
      = (resolvedStream env venue_name city).foldl
          (fun m d =>
            max m (scoreRecord venue_name city (pyLower (pyStrip cuisine)) d))
          (-1)) ∧
    scoreRecord "Le Jardin" "Ankara" "french" detD1 = 2 ∧
    scoreRecord "Le Jardin" "Ankara" "french" detD2 = 3 ∧
    search_venue_in_places envD true "Le Jardin" "Ankara" "French"
      = some detD2 :=
  ⟨resolver_eq_pickBest env venue_name city cuisine, pickBest_fst _ _,
   by decide, by decide, by decide⟩

/-- C1 counterexample: a run in which the only resolved record scores −2
(no overlap, no city match, cuisine mismatch): the resolver returns absent
even though a record — necessarily the highest-scoring one — was seen,
because the sentinel −1 is never exceeded. -/
theorem resolver_sentinel_counterexample :
    search_venue_in_places envC1 true "X" "Ankara" "French" = none ∧
    resolvedStream envC1 "X" "Ankara" = [detC1] ∧
    scoreRecord "X" "Ankara" "french" detC1 = -2 :=
  ⟨by decide, by decide, by decide⟩

theorem hasBoldSpan_star {l : List Char} (h : hasBoldSpan l) : '*' ∈ l := by
  obtain ⟨u, w, v, rfl, _, _⟩ := h
  simp

theorem hasBoldSpan_closure {m : List Char} (h : hasBoldSpan m)
    (u v : List Char) : hasBoldSpan (u ++ m ++ v) := by
  obtain ⟨a, w, b, rfl, hw, hstar⟩ := h
  exact ⟨u ++ a, w, b ++ v, by simp, hw, hstar⟩

theorem grabCapture_eq_some {rest cap rest2 : List Char}
    (h : grabCapture rest = some (cap, rest2)) :
    rest = cap ++ '*' :: '*' :: rest2 ∧ cap ≠ [] ∧ ∀ c ∈ cap, c ≠ '*' := by
  rw [grabCapture] at h
  split at h
  · exact absurd h (by simp)
  · rename_i hne
    split at h
    · rename_i heq
      injection h with h2
      injection h2 with h3 h4
      subst h3
      subst h4
      refine ⟨?_, by simpa [List.isEmpty_iff] using hne, ?_⟩
      · conv_lhs => rw [← List.takeWhile_append_dropWhile
          (p := fun c => decide (c ≠ '*')) (l := rest)]
        rw [heq]
      · intro c hc
        have := List.mem_takeWhile_imp hc
        simpa using this
    · exact absurd h (by simp)

theorem findBoldFuel_span : ∀ (fuel : Nat) (cs : List Char),
    findBoldFuel fuel cs ≠ [] → hasBoldSpan cs := by
  intro fuel
  induction fuel with
  | zero =>
    intro cs h
    exact absurd rfl h
  | succ fuel ih =>
    intro cs h
    rcases cs with _ | ⟨c, rest⟩
    · exact absurd rfl h
    · rw [findBoldFuel.eq_def] at h
      dsimp only at h
      by_cases hc : c = '*'
      · rw [if_pos hc] at h
        rcases rest with _ | ⟨c2, rest2⟩
        · exact absurd rfl h
        · dsimp only at h
          by_cases hc2 : c2 = '*'
          · rw [if_pos hc2] at h
            rcases hg : grabCapture rest2 with _ | ⟨cap, rest3⟩
            · rw [hg] at h
              dsimp only at h
              have hs := ih ('*' :: rest2) h
              subst hc
              subst hc2
              have := hasBoldSpan_closure hs ['*'] []
              simpa using this
            · obtain ⟨hre, hne, hstar⟩ := grabCapture_eq_some hg
              subst hc
              subst hc2
              rw [hg] at h
              exact ⟨[], cap, rest3, by rw [hre]; rfl, hne, hstar⟩
          · rw [if_neg hc2] at h
            have hs := ih (c2 :: rest2) h
            subst hc
            have := hasBoldSpan_closure hs ['*'] []
            simpa using this
      · rw [if_neg hc] at h
        have hs := ih rest h
        have := hasBoldSpan_closure hs [c] []
        simpa using this

theorem splitLinesFuel_mem : ∀ (fuel : Nat) (cs cur : List Char) (l : String),
    l ∈ splitLinesFuel fuel cs cur →
    ∃ u v, cur.reverse ++ cs = u ++ l.toList ++ v := by
  intro fuel
  induction fuel with
  | zero =>
    intro cs cur l h
    rw [splitLinesFuel] at h
    split at h
    · simp at h
    · have hl : l = String.mk cur.reverse := by simpa using h
      exact ⟨[], cs, by simp [hl]⟩
  | succ fuel ih =>
    intro cs cur l h
    rcases cs with _ | ⟨c, rest⟩
    · rw [splitLinesFuel] at h
      split at h
      · simp at h
      · have hl : l = String.mk cur.reverse := by simpa using h
        exact ⟨[], [], by simp [hl]⟩
    · rw [splitLinesFuel.eq_def] at h
      dsimp only at h
      by_cases hc : c = '\r'
      · rw [if_pos hc] at h
        rcases rest with _ | ⟨c2, rest2⟩
        · have hl : l = String.mk cur.reverse := by simpa using h
          exact ⟨[], [c], by simp [hl]⟩
        · dsimp only at h
          by_cases hc2 : c2 = '\n'
          · rw [if_pos hc2] at h
            rcases List.mem_cons.mp h with rfl | h2
            · exact ⟨[], c :: c2 :: rest2, by simp⟩
            · obtain ⟨u, v, huv⟩ := ih rest2 [] l h2
              simp only [List.reverse_nil, List.nil_append] at huv
              refine ⟨cur.reverse ++ c :: c2 :: u, v, ?_⟩
              rw [huv]
              simp
          · rw [if_neg hc2] at h
            rcases List.mem_cons.mp h with rfl | h2
            · exact ⟨[], c :: c2 :: rest2, by simp⟩
            · obtain ⟨u, v, huv⟩ := ih (c2 :: rest2) [] l h2
              simp only [List.reverse_nil, List.nil_append] at huv
              refine ⟨cur.reverse ++ [c] ++ u, v, ?_⟩
              rw [show cur.reverse ++ c :: c2 :: rest2
                  = cur.reverse ++ [c] ++ (c2 :: rest2) by simp, huv]
              simp
      · rw [if_neg hc] at h
        by_cases hn : c = '\n'
        · rw [if_pos hn] at h
          rcases List.mem_cons.mp h with rfl | h2
          · exact ⟨[], c :: rest, by simp⟩
          · obtain ⟨u, v, huv⟩ := ih rest [] l h2
            simp only [List.reverse_nil, List.nil_append] at huv
            refine ⟨cur.reverse ++ [c] ++ u, v, ?_⟩
            rw [show cur.reverse ++ c :: rest
                = cur.reverse ++ [c] ++ rest by simp, huv]
            simp
        · rw [if_neg hn] at h
          obtain ⟨u, v, huv⟩ := ih rest (c :: cur) l h
          refine ⟨u, v, ?_⟩
          rw [← huv]
          simp

theorem stripList_decomp (l : List Char) : ∃ u v, l = u ++ stripList l ++ v := by
  refine ⟨l.takeWhile pyWS,
    ((l.dropWhile pyWS).reverse.takeWhile pyWS).reverse, ?_⟩
  conv_lhs => rw [← List.takeWhile_append_dropWhile (p := pyWS) (l := l)]
  rw [List.append_assoc]
  congr 1
  rw [stripList]
  have hm := List.takeWhile_append_dropWhile (p := pyWS)
    (l := (l.dropWhile pyWS).reverse)
  calc l.dropWhile pyWS
      = (l.dropWhile pyWS).reverse.reverse := (List.reverse_reverse _).symm
    _ = ((l.dropWhile pyWS).reverse.takeWhile pyWS
          ++ (l.dropWhile pyWS).reverse.dropWhile pyWS).reverse := by rw [hm]
    _ = ((l.dropWhile pyWS).reverse.dropWhile pyWS).reverse
          ++ ((l.dropWhile pyWS).reverse.takeWhile pyWS).reverse := by
        rw [List.reverse_append]

theorem filterMap_none_of_mem {α β : Type} (l : List α) (f : α → Option β)
    (h : ∀ a ∈ l, f a = none) : l.filterMap f = [] := by
  induction l with
  | nil => rfl
  | cons a as ih =>
    rw [List.filterMap_cons, h a (List.mem_cons_self _ _)]
    exact ih fun a ha => h a (List.mem_cons_of_mem _ ha)

theorem candidateNames_nil {text : String} (h : ¬ hasBoldSpan text.toList) :
    candidateNames text = [] := by
  have hfb : findBold text = [] := by
    by_contra hne
    exact h (findBoldFuel_span _ _ hne)
  rw [candidateNames, hfb]
  simp only [List.filterMap_nil, List.nil_append]
  refine filterMap_none_of_mem _ _ fun line hline => ?_
  dsimp only
  split
  · have hfb2 : findBold (pyStrip line) = [] := by
      by_contra hne
      have hsp := findBoldFuel_span _ _ hne
      obtain ⟨u1, v1, h1⟩ := stripList_decomp line.toList
      obtain ⟨u2, v2, h2⟩ := splitLinesFuel_mem _ _ [] line hline
      simp only [List.reverse_nil, List.nil_append] at h2
      apply h
      have s1 := hasBoldSpan_closure hsp u1 v1
      rw [show stripList line.toList = (pyStrip line).toList from rfl] at h1
      rw [← h1] at s1
      have s2 := hasBoldSpan_closure s1 u2 v2
      rw [← h2] at s2
      exact s2
    rw [hfb2]
    rfl
  · rfl

theorem mem_candidateNames {text n : String} (h : n ∈ candidateNames text) :
    2 < n.length ∧ ∃ m ∈ rawCaptures text, n = processedName m := by
  rw [candidateNames, List.mem_append] at h
  rcases h with h | h
  · rcases List.mem_filterMap.mp h with ⟨m, hm, hf⟩
    dsimp only at hf
    split at hf
    · rename_i hlen
      injection hf with hf
      subst hf
      exact ⟨hlen, m, by rw [rawCaptures, List.mem_append]; exact Or.inl hm,
        rfl⟩
    · exact absurd hf (by simp)
  · rcases List.mem_filterMap.mp h with ⟨line, hline, hf⟩
    dsimp only at hf
    split at hf
    · rename_i hsb
      rcases hh : (findBold (pyStrip line)).head? with _ | m
      · rw [hh] at hf
        exact absurd hf (by simp)
      · rw [hh] at hf
        dsimp only at hf
        split at hf
        · rename_i hlen
          injection hf with hf
          subst hf
          refine ⟨hlen, m, ?_, rfl⟩
          rw [rawCaptures, List.mem_append]
          right
          rw [List.mem_filterMap]
          refine ⟨line, hline, ?_⟩
          rw [if_pos hsb, hh]
        · exact absurd hf (by simp)
    · exact absurd hf (by simp)

theorem dedupCIAux_sublist (l : List String) :
    ∀ seen, List.Sublist (dedupCIAux l seen) l := by
  induction l with
  | nil =>
    intro seen
    exact List.Sublist.refl _
  | cons n ns ih =>
    intro seen
    rw [dedupCIAux]
    split
    · exact List.Sublist.cons _ (ih seen)
    · exact List.Sublist.cons₂ _ (ih _)

theorem dedupCIAux_spec (l : List String) : ∀ seen,
    (∀ x ∈ dedupCIAux l seen, pyLower x ∉ seen) ∧
    List.Pairwise (fun a b => pyLower a ≠ pyLower b) (dedupCIAux l seen) := by
  induction l with
  | nil =>
    intro seen
    constructor
    · intro x hx
      simp [dedupCIAux] at hx
    · rw [dedupCIAux]
      exact List.Pairwise.nil
  | cons n ns ih =>
    intro seen
    rw [dedupCIAux]
    split
    · exact ih seen
    · rename_i hseen
      constructor
      · intro x hx hxseen
        rcases List.mem_cons.mp hx with rfl | hx2
        · exact hseen (List.elem_iff.mpr hxseen)
        · exact (ih (pyLower n :: seen)).1 x hx2 (List.mem_cons_of_mem _ hxseen)
      · rw [List.pairwise_cons]
        constructor
        · intro b hb heq
          have := (ih (pyLower n :: seen)).1 b hb
          rw [← heq] at this
          exact this (List.mem_cons_self _ _)
        · exact (ih (pyLower n :: seen)).2

/-- C6 (amended): the extractor returns at most 3 names, with no
case-insensitive duplicates, preserving the candidate order (first
occurrence wins); each returned name is an emphasis-delimited capture with
every parenthetical qualifier (anywhere in the span) removed and surrounding
whitespace trimmed, of length strictly greater than 2; and on text with no
emphasis-markup span it returns the empty sequence. -/
theorem extractor_shape (text : String) :
    (extract_venue_names_from_text text).length ≤ 3 ∧
    List.Pairwise (fun a b => pyLower a ≠ pyLower b)
      (extract_venue_names_from_text text) ∧
    (∀ n ∈ extract_venue_names_from_text text,
      2 < n.length ∧ ∃ m ∈ rawCaptures text, n = processedName m) ∧
    List.Sublist (extract_venue_names_from_text text) (candidateNames text) ∧
    (¬ hasBoldSpan text.toList → extract_venue_names_from_text text = []) := by
  by_cases htext : text = ""
  · subst htext
    refine ⟨by simp [extract_venue_names_from_text], ?_, ?_, ?_, fun _ => rfl⟩
    · rw [extract_venue_names_from_text]
      simp
    · intro n hn
      simp [extract_venue_names_from_text] at hn
    · rw [extract_venue_names_from_text]
      simp
  · have hex : extract_venue_names_from_text text
        = (dedupCIAux (candidateNames text) []).take 3 := by
      rw [extract_venue_names_from_text, if_neg htext]
    rw [hex]
    refine ⟨?_, ?_, ?_, ?_, ?_⟩
    · rw [List.length_take]
      exact min_le_left _ _
    · exact List.Pairwise.sublist (List.take_sublist _ _)
        (dedupCIAux_spec (candidateNames text) []).2
    · intro n hn
      have h1 : n ∈ dedupCIAux (candidateNames text) [] :=
        List.mem_of_mem_take hn
      have h2 : n ∈ candidateNames text :=
        (dedupCIAux_sublist _ []).subset h1
      exact mem_candidateNames h2
    · exact (List.take_sublist _ _).trans (dedupCIAux_sublist _ [])
    · intro hnospan
      rw [candidateNames_nil hnospan]
      rfl

/-- Witness for C6 at a concrete input: `"abc"` contains no emphasis span,
and the extractor returns the empty sequence on it. -/
theorem extractor_shape_witness :
    ¬ hasBoldSpan ("abc".toList) ∧ extract_venue_names_from_text "abc" = [] :=
  have hn : ¬ hasBoldSpan ("abc".toList) := fun hsp =>
    absurd (hasBoldSpan_star hsp) (by decide)
  ⟨hn, (extractor_shape "abc").2.2.2.2 hn⟩

/-- C6 counterexample: the extractor removes a parenthetical in the middle
of the span (with its adjacent whitespace), yielding `"AbCd"`, while the
claim — which only strips a trailing parenthetical qualifier — requires the
name `"Ab (X) Cd"`. -/
theorem extractor_paren_counterexample :
    extract_venue_names_from_text "**Ab (X) Cd**" = ["AbCd"] ∧
      "AbCd" ≠ "Ab (X) Cd" := ⟨by decide, by decide⟩

theorem orchestrator_outdoor_cuisine_witness :
    prSuggestions envW true { ctxO with cuisine := "Italian" } none
      = prSuggestions envW true { ctxO with cuisine := "Turkish" } none :=
  (orchestrator_outdoor_cuisine envW true ctxO none).2.2 (by decide)
    "Italian" "Turkish"

end VenueAgent
